import Mathlib

/-!
Shallow embedding of the countdown-scraper reconciliation engine and its
storage backends, verified against the repository's natural-language
specification.

Sources embedded:
* `src/unnamed/part_001` — the MySQL backend (`upsertProductToMySQL`,
  `buildUpdatedProduct`).
* `src/src/frappe.ts` — the Frappe backend (`upsertProductToFrappe`).
* `src/src/index.ts` — `playwrightElementToProduct`, `validateProduct`,
  `parseAndCategoriseURL`.

Modelling conventions:
* JS strings are `List Char` (`Str`); `slice`, `split`, `includes`,
  `startsWith`, `replace` are given explicit executable models below.
* JS numbers carrying prices are modelled as exact rationals `ℚ`
  (prices are 2-decimal values; the code only compares and copies them).
* Dates are modelled as ISO-8601 timestamp strings; `toString` and
  `toISOString` are modelled as the identity on that representation
  (the spec's design note fixes one canonical textual representation).
* Nullable fields of the stored row (`category`) are `Option`; code paths
  that would raise a `TypeError` at runtime return `Except.error`, and the
  `try/catch` wrappers of the upsert functions are modelled explicitly.
-/

set_option linter.unusedVariables false

abbrev Str := List Char

/-- Model of `String.prototype.startsWith`: `hasPrefixC l p` is true iff `p`
is a prefix of `l`. -/
def hasPrefixC : Str → Str → Bool
  | _, [] => true
  | [], _ :: _ => false
  | a :: as, b :: bs => if a = b then hasPrefixC as bs else false

/-- Model of `String.prototype.includes`: `containsC l s` is true iff `s`
occurs as a contiguous substring of `l`. -/
def containsC : Str → Str → Bool
  | [], s => s.isEmpty
  | a :: as, s => hasPrefixC (a :: as) s || containsC as s

/-- Helper used by the split functions: prepend a character to the first
chunk of a chunk list. -/
def consHead (c : Char) : List Str → List Str
  | [] => [[c]]
  | h :: t => (c :: h) :: t

/-- Model of `String.prototype.split` on a single-character separator
(`line.split(' ')`, `url.split('?')`, `url.split('/')`): empty chunks are
kept, exactly as in JS. -/
def splitCh (sep : Char) : Str → List Str
  | [] => [[]]
  | c :: cs => if c = sep then [] :: splitCh sep cs else consHead c (splitCh sep cs)

/-- Model of `String.prototype.split` on the two-character separator
`", "` used by the category parser. -/
def splitCS : Str → List Str
  | [] => [[]]
  | [a] => [[a]]
  | a :: b :: rest =>
    if a = ',' ∧ b = ' ' then [] :: splitCS rest
    else consHead a (splitCS (b :: rest))

/-- Model of `String.prototype.indexOf` for a single character. -/
def idxOf (c : Char) : Str → Option Nat
  | [] => none
  | a :: as => if a = c then some 0 else (idxOf c as).map (· + 1)

/-- Model of `line.substring(0, line.indexOf('?'))`: JS `indexOf` returns
`-1` when absent, and `substring` clamps the negative bound to `0`,
yielding the empty string. -/
def substrToQ (l : Str) : Str :=
  match idxOf '?' l with
  | some i => l.take i
  | none => []

/-- Model of `.replace(/\D/g, '')`: keep only decimal digits. -/
def digitsOnly (s : Str) : Str := s.filter Char.isDigit

/-- Numeric value of a digit string (most significant first). -/
def natOfDigits (s : Str) : Nat :=
  s.foldl (fun acc c => acc * 10 + (c.toNat - '0'.toNat)) 0

/-- Model of JS `Number(...)` restricted to the unsigned decimal literals
this scraper builds (`dollars + "." + digitsOnly(cents)`): `none` stands
for `NaN`. Other numeric syntaxes JS would accept (signs, exponents, hex,
surrounding whitespace) do not arise from the strings this code constructs. -/
def jsNumber (s : Str) : Option ℚ :=
  if s = [] then some 0
  else
    match splitCh '.' s with
    | [ip] => if ip.all Char.isDigit then some (natOfDigits ip) else none
    | [ip, fp] =>
      if ip.all Char.isDigit ∧ fp.all Char.isDigit ∧ (ip ≠ [] ∨ fp ≠ []) then
        some ((natOfDigits ip : ℚ) + (natOfDigits fp : ℚ) / (10 : ℚ) ^ fp.length)
      else none
    | _ => none

/-- Model of `.toString().slice(0, 10)` / `.toISOString().slice(0, 10)` on
the ISO-string date representation: the calendar-day prefix `YYYY-MM-DD`. -/
def slice10 (s : Str) : Str := s.take 10

/-- A single element of `priceHistory` (`DatedPrice` in `typings`):
an immutable `{date, price}` observation. -/
structure DatedPrice where
  date : Str
  price : ℚ
deriving DecidableEq, Repr, Inhabited

/-- The central `Product` entity, with the fields of the storage schema in
`src/unnamed/part_001` (`id, name, category, sourceSite, size, unitPrice,
unitName, originalUnitQuantity, currentPrice, priceHistory, lastUpdated,
lastChecked`). `category` is `Option` because the stored row's JSON column
is nullable and the code tests `dbProduct.category === null`. -/
structure Product where
  id : Str
  name : Str
  category : Option (List Str)
  sourceSite : Str
  size : Option Str
  unitPrice : Option ℚ
  unitName : Option Str
  originalUnitQuantity : Option ℚ
  currentPrice : ℚ
  priceHistory : List DatedPrice
  lastUpdated : Str
  lastChecked : Str
deriving DecidableEq, Repr

/-- Modelled from the spec: the `UpsertResponse` enum of `typings.ts` is not
under `src/`. The spec lists the five decisions `NewProduct`, `PriceChanged`,
`InfoChanged`, `AlreadyUpToDate`, `Failed`; `src/src/frappe.ts` additionally
references `UpsertResponse.Updated`, so that member is included as well. -/
inductive UpsertResponse where
  | NewProduct
  | PriceChanged
  | InfoChanged
  | AlreadyUpToDate
  | Failed
  | Updated
deriving DecidableEq, Repr

/-- The `ProductResponse` pair returned by `buildUpdatedProduct`. -/
structure ProductResponse where
  upsertType : UpsertResponse
  product : Product
deriving DecidableEq, Repr

/-- The qualifying-price-change test of `buildUpdatedProduct`
(`src/unnamed/part_001` lines 133-137): absolute price difference strictly
above `0.05` and distinct calendar-day prefixes of the `lastUpdated` dates. -/
def priceChangeCond (scraped dbProduct : Product) : Prop :=
  |dbProduct.currentPrice - scraped.currentPrice| > 1 / 20 ∧
    slice10 dbProduct.lastUpdated ≠ slice10 scraped.lastUpdated

instance (scraped dbProduct : Product) : Decidable (priceChangeCond scraped dbProduct) := by
  unfold priceChangeCond; infer_instance

/-- Embedding of `buildUpdatedProduct` (`src/unnamed/part_001` lines
125-172). The hardcoded `validCategories` list lives in `utilities.ts`,
which is not under `src/`; it is passed as the explicit parameter
`validCats`. `Except.error` models a thrown `TypeError`:
`dbProduct.category.every(...)` throws when the stored category is `null`
(so the following `dbProduct.category === null` test is unreachable), and
the `InfoChanged` branch's log statement calls
`scrapedProduct.category.join(" ")`, which throws when the scraped category
is `null`. In the `PriceChanged` branch the pushed element is
`scrapedProduct.priceHistory[0]`; JS would push `undefined` for an empty
array, which the model renders as the default `DatedPrice`. -/
def buildUpdatedProduct (validCats : List Str) (scrapedProduct dbProduct : Product) :
    Except String ProductResponse :=
  if priceChangeCond scrapedProduct dbProduct then
    Except.ok
      { upsertType := UpsertResponse.PriceChanged,
        product :=
          { scrapedProduct with
            priceHistory :=
              dbProduct.priceHistory ++ [scrapedProduct.priceHistory.headD default] } }
  else
    match dbProduct.category with
    | none => Except.error "TypeError: cannot read property every of null"
    | some dbCats =>
      if ¬ dbCats.all (fun c => decide (c ∈ validCats)) then
        match scrapedProduct.category with
        | none => Except.error "TypeError: cannot read property join of null"
        | some _ =>
          Except.ok
            { upsertType := UpsertResponse.InfoChanged,
              product :=
                { scrapedProduct with
                  priceHistory := dbProduct.priceHistory,
                  lastUpdated := dbProduct.lastUpdated } }
      else
        Except.ok
          { upsertType := UpsertResponse.AlreadyUpToDate,
            product := { dbProduct with lastChecked := scrapedProduct.lastChecked } }

/-- Effect of the `UPDATE products SET ...` statement of
`upsertProductToMySQL` (`src/unnamed/part_001` lines 57-69) on the stored
row: it writes exactly the columns `name, category, sourceSite, size,
unitPrice, unitName, originalUnitQuantity, currentPrice, priceHistory,
lastUpdated`; `id` is only the `WHERE` key and `lastChecked` is not in the
column list, so both keep their stored values. -/
def applyUpdate (old newp : Product) : Product :=
  { old with
    name := newp.name
    category := newp.category
    sourceSite := newp.sourceSite
    size := newp.size
    unitPrice := newp.unitPrice
    unitName := newp.unitName
    originalUnitQuantity := newp.originalUnitQuantity
    currentPrice := newp.currentPrice
    priceHistory := newp.priceHistory
    lastUpdated := newp.lastUpdated }

/-- Body of the `try` block of `upsertProductToMySQL` (`src/unnamed/part_001`
lines 48-118). `existing` is the row the `SELECT` finds for the product's
id (or `none`); `writeOk` models whether the `INSERT`/`UPDATE` execution
succeeds (a failing execute throws, i.e. `Except.error`). The result is
the returned decision together with the stored row after the write. -/
def upsertMySQLBody (validCats : List Str) (writeOk : Bool) (scrapedProduct : Product)
    (existing : Option Product) : Except String (UpsertResponse × Option Product) :=
  match existing with
  | some dbProduct =>
    match buildUpdatedProduct validCats scrapedProduct dbProduct with
    | Except.error e => Except.error e
    | Except.ok response =>
      if writeOk then
        Except.ok (response.upsertType, some (applyUpdate dbProduct response.product))
      else Except.error "mysql execute failed"
  | none =>
    if writeOk then Except.ok (UpsertResponse.NewProduct, some scrapedProduct)
    else Except.error "mysql execute failed"

/-- Embedding of `upsertProductToMySQL` (`src/unnamed/part_001` lines
48-123): the whole body runs inside `try { ... } catch (e) { logError(e);
return UpsertResponse.Failed; }`, so every thrown error becomes the
decision `Failed` and the stored row is left as it was. -/
def upsertProductToMySQL (validCats : List Str) (writeOk : Bool) (scrapedProduct : Product)
    (existing : Option Product) : UpsertResponse × Option Product :=
  match upsertMySQLBody validCats writeOk scrapedProduct existing with
  | Except.ok r => r
  | Except.error _ => (UpsertResponse.Failed, existing)

/-- Outcome of one axios call in `src/src/frappe.ts`: success, a thrown
error carrying a response status, or a thrown error with no response
(`error.response` undefined). -/
inductive HttpResult where
  | ok
  | errStatus (code : Nat)
  | errNoResponse
deriving DecidableEq, Repr

/-- The error the `catch` block of `upsertProductToFrappe` receives: the
`get` error if the `get` threw, otherwise the `put` error if the `put`
threw, otherwise nothing. -/
def caughtOf (getRes putRes : HttpResult) : Option HttpResult :=
  match getRes with
  | HttpResult.ok =>
    match putRes with
    | HttpResult.ok => none
    | e => some e
  | e => some e

/-- The `error.response && error.response.status === 404` test of
`src/src/frappe.ts` line 42. -/
def is404 : HttpResult → Bool
  | HttpResult.errStatus code => decide (code = 404)
  | _ => false

/-- Embedding of `upsertProductToFrappe` (`src/src/frappe.ts` lines 18-72).
`getRes`, `putRes`, `postRes` are the outcomes of the `axios.get`,
`axios.put` and `axios.post` calls. On a caught 404 the create `post` runs
inside the `catch` block with no further handler, so a failure of the
`post` propagates to the caller (`Except.error`). The successful update
path returns `UpsertResponse.Updated`. The product payload does not
influence the decision. -/
def upsertProductToFrappe (scrapedProduct : Product) (getRes putRes postRes : HttpResult) :
    Except String UpsertResponse :=
  match caughtOf getRes putRes with
  | none => Except.ok UpsertResponse.Updated
  | some e =>
    if is404 e then
      match postRes with
      | HttpResult.ok => Except.ok UpsertResponse.NewProduct
      | _ => Except.error "unhandled error thrown by the create request"
    else Except.ok UpsertResponse.Failed

/-- Embedding of `validateProduct` (`src/src/index.ts` lines 339-356). The
`null`/`undefined`/`NaN` price guards of the source cannot fire in the
rational model; `NaN` is handled upstream by `jsNumber` returning `none`. -/
def validateProduct (product : Product) : Bool :=
  if product.name.length < 4 ∨ product.name.length > 100 then false
  else if product.id.length < 2 ∨ product.id.length > 20 then false
  else if product.currentPrice ≤ 0 ∨ product.currentPrice > 999 then false
  else true

/-- Embedding of `playwrightElementToProduct` (`src/src/index.ts` lines
279-336). DOM extraction and the lodash `startCase` normalisation are
external collaborators; their results enter as the raw parameters
`idAttr` (the `h3` id attribute, possibly absent), `nameStr`, `sizeStr`,
`dollarStr` and `centStr`. An absent id attribute makes
`validateProduct`'s `product.id.length` access throw, which the
`try/catch` there turns into a rejection, hence `none`. The three
`new Date()` calls of one invocation are modelled as the single scrape
instant `now`. A `NaN` price (`jsNumber` returns `none`) is rejected by
the `Number.isNaN` guard of `validateProduct`, hence `none`. -/
def playwrightElementToProduct (idAttr : Option Str) (nameStr : Str) (sizeStr : Str)
    (categories : List Str) (dollarStr centStr : Str) (now : Str) : Option Product :=
  match idAttr with
  | none => none
  | some rawId =>
    match jsNumber (dollarStr ++ '.' :: digitsOnly centStr) with
    | none => none
    | some price =>
      let product : Product :=
        { id := digitsOnly rawId
          name := nameStr
          category := some categories
          sourceSite := ['c', 'o', 'u', 'n', 't', 'd', 'o', 'w', 'n', '.', 'c', 'o', '.', 'n', 'z']
          size := some sizeStr
          unitPrice := none
          unitName := none
          originalUnitQuantity := none
          currentPrice := price
          priceHistory := [{ date := now, price := price }]
          lastUpdated := now
          lastChecked := now }
      if validateProduct product then some product else none

/-- The `currentPrice`-matches-ledger invariant of the spec's data model:
the price of the last `priceHistory` element equals `currentPrice`
(which forces the history to be non-empty). -/
def priceMatchesLedger (product : Product) : Prop :=
  product.priceHistory.getLast?.map DatedPrice.price = some product.currentPrice

instance (product : Product) : Decidable (priceMatchesLedger product) := by
  unfold priceMatchesLedger; infer_instance

/-- A scrape target with its category tags (`CategorisedUrl` in `typings`). -/
structure CategorisedUrl where
  url : Str
  categories : List Str
deriving DecidableEq, Repr

/-- The substring `'countdown.co.nz'` the parser requires. -/
def countdownStr : Str := ['c', 'o', 'u', 'n', 't', 'd', 'o', 'w', 'n', '.', 'c', 'o', '.', 'n', 'z']

/-- The optimised query parameters `'?page=1&size=48&inStockProductsOnly=true'`
appended to every parsed URL. -/
def optimisedQuery : Str :=
  ['?', 'p', 'a', 'g', 'e', '=', '1', '&', 's', 'i', 'z', 'e', '=', '4', '8', '&',
   'i', 'n', 'S', 't', 'o', 'c', 'k', 'P', 'r', 'o', 'd', 'u', 'c', 't', 's', 'O',
   'n', 'l', 'y', '=', 't', 'r', 'u', 'e']

/-- The `'categories='` token prefix. -/
def categoriesTok : Str := ['c', 'a', 't', 'e', 'g', 'o', 'r', 'i', 'e', 's', '=']

/-- The `'https://'` scheme prefix. -/
def httpsPrefix : Str := ['h', 't', 't', 'p', 's', ':', '/', '/']

/-- The `'http'` prefix tested by `url.startsWith('http')`. -/
def httpStr : Str := ['h', 't', 't', 'p']

/-- The body of the `line.split(' ').forEach((section) => ...)` loop of
`parseAndCategoriseURL` (`src/src/index.ts` lines 376-401), acting on the
accumulating `categorisedUrl`. A section containing `countdown.co.nz`
becomes the url: it is prefixed with `https://` unless it starts with
`http`, stripped back to `line.substring(0, line.indexOf('?'))` when it
carries a query string, and suffixed with the optimised query parameters.
A section starting with `categories=` sets the category list: the token is
removed (its first occurrence is the leading one) and the rest is split on
`', '` when the section contains that separator. -/
def processSection (line : Str) (st : CategorisedUrl) (sec : Str) : CategorisedUrl :=
  if containsC sec countdownStr then
    let u1 := sec
    let u2 := if hasPrefixC u1 httpStr then u1 else httpsPrefix ++ u1
    let u3 := if containsC u2 ['?'] then substrToQ line else u2
    { st with url := u3 ++ optimisedQuery }
  else if hasPrefixC sec categoriesTok then
    let rest := sec.drop categoriesTok.length
    let cats := if containsC sec [',', ' '] then splitCS rest else [rest]
    { st with categories := cats }
  else st

/-- The last URL path segment used as the category fallback
(`src/src/index.ts` lines 405-412): the final `/`-separated section of the
url with any query string removed. -/
def lastUrlSegment (url : Str) : Str :=
  (splitCh '/' ((splitCh '?' url).headD [])).getLastD []

/-- Embedding of `parseAndCategoriseURL` (`src/src/index.ts` lines
368-415): `none` models the `undefined` result for a line not containing
`countdown.co.nz`; otherwise the space-separated sections are folded
through `processSection` starting from `{url: '', categories: []}`, and an
empty category list falls back to the last URL path segment. -/
def parseAndCategoriseURL (line : Str) : Option CategorisedUrl :=
  if ¬ containsC line countdownStr then none
  else
    let st := (splitCh ' ' line).foldl (processSection line) { url := [], categories := [] }
    if st.categories.length = 0 then
      some { st with categories := [lastUrlSegment st.url] }
    else
      some st

deriving instance DecidableEq for Except

/-- Convenience coercion from Lean string literals to the `Str` model. -/
def strOf (s : String) : Str := s.data

/-- The valid-category test applied by `buildUpdatedProduct` to the stored
category tags. -/
def allValid (validCats : List Str) (cats : List Str) : Bool :=
  cats.all (fun c => decide (c ∈ validCats))

theorem buildUpdatedProduct_price_eq (validCats : List Str) (s d : Product)
    (h : priceChangeCond s d) :
    buildUpdatedProduct validCats s d =
      Except.ok
        { upsertType := UpsertResponse.PriceChanged,
          product :=
            { s with priceHistory := d.priceHistory ++ [s.priceHistory.headD default] } } := by
  unfold buildUpdatedProduct
  rw [if_pos h]

theorem buildUpdatedProduct_none_eq (validCats : List Str) (s d : Product)
    (hpc : ¬ priceChangeCond s d) (hc : d.category = none) :
    buildUpdatedProduct validCats s d =
      Except.error "TypeError: cannot read property every of null" := by
  unfold buildUpdatedProduct
  rw [if_neg hpc, hc]

theorem buildUpdatedProduct_info_eq (validCats : List Str) (s d : Product)
    (dbCats sCats : List Str) (hpc : ¬ priceChangeCond s d) (hc : d.category = some dbCats)
    (hv : allValid validCats dbCats = false) (hs : s.category = some sCats) :
    buildUpdatedProduct validCats s d =
      Except.ok
        { upsertType := UpsertResponse.InfoChanged,
          product :=
            { s with priceHistory := d.priceHistory, lastUpdated := d.lastUpdated } } := by
  unfold buildUpdatedProduct
  rw [if_neg hpc, hc, hs]
  unfold allValid at hv
  simp [hv]

theorem buildUpdatedProduct_upToDate_eq (validCats : List Str) (s d : Product)
    (dbCats : List Str) (hpc : ¬ priceChangeCond s d) (hc : d.category = some dbCats)
    (hv : allValid validCats dbCats = true) :
    buildUpdatedProduct validCats s d =
      Except.ok
        { upsertType := UpsertResponse.AlreadyUpToDate,
          product := { d with lastChecked := s.lastChecked } } := by
  unfold buildUpdatedProduct
  rw [if_neg hpc, hc]
  unfold allValid at hv
  simp [hv]

/-- Inversion principle for a successful `buildUpdatedProduct` call: the
result is exactly one of the `PriceChanged`, `InfoChanged` or
`AlreadyUpToDate` outcomes, with the corresponding branch conditions. -/
theorem buildUpdatedProduct_inv (validCats : List Str) (s d : Product) (r : ProductResponse)
    (h : buildUpdatedProduct validCats s d = Except.ok r) :
    (priceChangeCond s d ∧
      r = { upsertType := UpsertResponse.PriceChanged,
            product :=
              { s with priceHistory := d.priceHistory ++ [s.priceHistory.headD default] } })
    ∨ (¬ priceChangeCond s d ∧ ∃ dbCats, d.category = some dbCats ∧
        ((allValid validCats dbCats = false ∧ (∃ sCats, s.category = some sCats) ∧
          r = { upsertType := UpsertResponse.InfoChanged,
                product :=
                  { s with priceHistory := d.priceHistory, lastUpdated := d.lastUpdated } })
        ∨ (allValid validCats dbCats = true ∧
          r = { upsertType := UpsertResponse.AlreadyUpToDate,
                product := { d with lastChecked := s.lastChecked } }))) := by
  unfold buildUpdatedProduct at h
  by_cases hpc : priceChangeCond s d
  · rw [if_pos hpc] at h
    left
    exact ⟨hpc, (Except.ok.injEq _ _).mp h.symm⟩
  · rw [if_neg hpc] at h
    right
    refine ⟨hpc, ?_⟩
    cases hc : d.category with
    | none => rw [hc] at h; exact absurd h (by simp)
    | some dbCats =>
      rw [hc] at h
      dsimp only at h
      refine ⟨dbCats, rfl, ?_⟩
      by_cases hv : (dbCats.all fun c => decide (c ∈ validCats)) = true
      · rw [if_neg (by simp [hv])] at h
        right
        exact ⟨by simpa [allValid] using hv, (Except.ok.injEq _ _).mp h.symm⟩
      · rw [if_pos hv] at h
        left
        cases hs : s.category with
        | none => rw [hs] at h; exact absurd h (by simp)
        | some sCats =>
          rw [hs] at h
          dsimp only at h
          exact ⟨by simpa [allValid] using hv, ⟨sCats, rfl⟩, (Except.ok.injEq _ _).mp h.symm⟩

/-- Every history obtained by appending one observation ends with that
observation. -/
theorem getLast?_snoc {α : Type} (a : α) : ∀ l : List α, (l ++ [a]).getLast? = some a
  | [] => rfl
  | b :: bs => by
    rw [List.cons_append]
    cases hb : bs ++ [a] with
    | nil => exact absurd hb (by simp)
    | cons c cs => rw [List.getLast?_cons_cons, ← hb, getLast?_snoc a bs]

/-- Builder for the concrete products used by witnesses and
counterexamples; identifying metadata is fixed, the reconciliation-relevant
fields vary. -/
def mkSampleProduct (price : ℚ) (cats : Option (List Str)) (hist : List DatedPrice)
    (lu lc : Str) : Product :=
  { id := strOf "123"
    name := strOf "Test Item"
    category := cats
    sourceSite := strOf "countdown.co.nz"
    size := some (strOf "1kg")
    unitPrice := none
    unitName := none
    originalUnitQuantity := none
    currentPrice := price
    priceHistory := hist
    lastUpdated := lu
    lastChecked := lc }

def dayOne : Str := strOf "2023-01-01T00:00:00.000Z"

def dayTwo : Str := strOf "2023-01-02T00:00:00.000Z"

def catIceCream : Str := strOf "ice-cream"

def catUnknown : Str := strOf "zzz"

def sampleValidCats : List Str := [catIceCream]

/-- A freshly scraped product: `$4.10` observed on day two, single-entry
history, valid category. -/
def scrapedSample : Product :=
  mkSampleProduct (41 / 10) (some [catIceCream])
    [{ date := dayTwo, price := 41 / 10 }] dayTwo dayTwo

/-- A stored record priced `$4.00`, last updated on day one, valid
category. -/
def dbSample : Product :=
  mkSampleProduct 4 (some [catIceCream]) [{ date := dayOne, price := 4 }] dayOne dayOne

/-- A stored record priced `$4.00` but last updated on day two (the same
calendar day as `scrapedSample`), `lastChecked` still day one. -/
def dbSameDay : Product :=
  mkSampleProduct 4 (some [catIceCream]) [{ date := dayOne, price := 4 }] dayTwo dayOne

/-- Like `dbSameDay` but carrying a category tag outside the valid set. -/
def dbBadCats : Product :=
  mkSampleProduct 4 (some [catUnknown]) [{ date := dayOne, price := 4 }] dayTwo dayOne

/-- Like `dbSameDay` but with a `null` category column. -/
def dbNullCats : Product :=
  mkSampleProduct 4 none [{ date := dayOne, price := 4 }] dayTwo dayOne

/-- A scraped product whose own category tag is outside the valid set. -/
def scrapedBadCats : Product :=
  mkSampleProduct 4 (some [catUnknown]) [{ date := dayTwo, price := 4 }] dayTwo dayTwo

/-- A stored record with a different invalid category tag, last updated on
day one. -/
def dbWrongCats : Product :=
  mkSampleProduct 4 (some (strOf "yyy" :: [])) [{ date := dayOne, price := 4 }] dayOne dayOne

/-- The `PriceChanged` response `buildUpdatedProduct` produces for
`scrapedSample` against `dbSample`. -/
def priceChangedSampleResponse : ProductResponse :=
  { upsertType := UpsertResponse.PriceChanged,
    product :=
      { scrapedSample with
        priceHistory := dbSample.priceHistory ++ [{ date := dayTwo, price := 41 / 10 }] } }

/-- The `InfoChanged` response `buildUpdatedProduct` produces for
`scrapedSample` against `dbBadCats`. -/
def infoChangedSampleResponse : ProductResponse :=
  { upsertType := UpsertResponse.InfoChanged,
    product :=
      { scrapedSample with
        priceHistory := dbBadCats.priceHistory,
        lastUpdated := dbBadCats.lastUpdated } }

/-- The `InfoChanged` response `buildUpdatedProduct` produces for
`scrapedBadCats` against `dbWrongCats`; reconciling `scrapedBadCats`
against this response's product reproduces it. -/
def infoChangedFixpointResponse : ProductResponse :=
  { upsertType := UpsertResponse.InfoChanged,
    product :=
      { scrapedBadCats with
        priceHistory := dbWrongCats.priceHistory,
        lastUpdated := dbWrongCats.lastUpdated } }

/-- C1 is refuted as stated: reconciling `scrapedSample` (price `$4.10`)
against `dbBadCats` (price `$4.00`, same calendar day, invalid category
tag) returns the `InfoChanged` product, whose `currentPrice` is the
scraped `$4.10` while the last element of its (kept) `priceHistory` still
records `$4.00`. -/
theorem claim1_invariant_counterexample :
    buildUpdatedProduct sampleValidCats scrapedSample dbBadCats =
      Except.ok infoChangedSampleResponse
    ∧ infoChangedSampleResponse.upsertType = UpsertResponse.InfoChanged
    ∧ ¬ priceMatchesLedger infoChangedSampleResponse.product := by
  refine ⟨by with_unfolding_all decide, rfl, by with_unfolding_all decide⟩

/-- C1 (amended): the `currentPrice`-equals-last-history-price invariant
holds for the products returned by the `PriceChanged` and
`AlreadyUpToDate` branches of `buildUpdatedProduct`, provided the scraped
product's first history entry carries its current price and the existing
record satisfies the invariant; the `InfoChanged` branch can violate it
(see the counterexample). -/
theorem claim1_ledger_invariant (validCats : List Str) (s d : Product) (r : ProductResponse)
    (hs : (s.priceHistory.headD default).price = s.currentPrice)
    (hd : priceMatchesLedger d)
    (h : buildUpdatedProduct validCats s d = Except.ok r)
    (ht : r.upsertType ≠ UpsertResponse.InfoChanged) :
    priceMatchesLedger r.product := by
  rcases buildUpdatedProduct_inv _ _ _ _ h with
    ⟨hpc, rfl⟩ | ⟨hpc, dbCats, hc, ⟨hv, ⟨sCats, hsc⟩, rfl⟩ | ⟨hv, rfl⟩⟩
  · unfold priceMatchesLedger
    dsimp only
    rw [getLast?_snoc, Option.map_some', hs]
  · exact absurd rfl ht
  · exact hd

/-- Witness for the amended C1 at the concrete `PriceChanged` instance. -/
theorem claim1_ledger_invariant_witness :
    priceMatchesLedger priceChangedSampleResponse.product :=
  claim1_ledger_invariant sampleValidCats scrapedSample dbSample priceChangedSampleResponse
    (by with_unfolding_all decide) (by with_unfolding_all decide)
    (by with_unfolding_all decide) (by with_unfolding_all decide)

/-- C2: a successful `buildUpdatedProduct` call returns the decision
`PriceChanged` exactly when the absolute price difference exceeds `0.05`
and the calendar-day prefixes of the two `lastUpdated` dates differ; in
particular a delta of at most `0.05`, or an equal calendar day, never
yields `PriceChanged`. -/
theorem claim2_priceChanged_iff (validCats : List Str) (s d : Product) (r : ProductResponse)
    (h : buildUpdatedProduct validCats s d = Except.ok r) :
    r.upsertType = UpsertResponse.PriceChanged ↔
      (|d.currentPrice - s.currentPrice| > 1 / 20 ∧
        slice10 d.lastUpdated ≠ slice10 s.lastUpdated) := by
  rcases buildUpdatedProduct_inv _ _ _ _ h with
    ⟨hpc, rfl⟩ | ⟨hpc, dbCats, hc, ⟨hv, hsc, rfl⟩ | ⟨hv, rfl⟩⟩
  · exact iff_of_true rfl hpc
  · exact iff_of_false (by simp) hpc
  · exact iff_of_false (by simp) hpc

/-- Witness for C2 at the concrete `PriceChanged` instance. -/
theorem claim2_priceChanged_iff_witness :
    priceChangedSampleResponse.upsertType = UpsertResponse.PriceChanged ↔
      (|dbSample.currentPrice - scrapedSample.currentPrice| > 1 / 20 ∧
        slice10 dbSample.lastUpdated ≠ slice10 scrapedSample.lastUpdated) :=
  claim2_priceChanged_iff sampleValidCats scrapedSample dbSample priceChangedSampleResponse
    (by with_unfolding_all decide)

/-- C3: a product built by `playwrightElementToProduct` and upserted with
no existing row yields the decision `NewProduct`, the scraped product is
persisted as-is, and its `priceHistory` is exactly the single entry
carrying the scraped `currentPrice` at the scrape instant. -/
theorem claim3_new_product (validCats : List Str) (idAttr : Option Str)
    (nameStr sizeStr : Str) (categories : List Str) (dollarStr centStr now : Str) (p : Product)
    (h : playwrightElementToProduct idAttr nameStr sizeStr categories dollarStr centStr now =
      some p) :
    upsertProductToMySQL validCats true p none = (UpsertResponse.NewProduct, some p)
    ∧ p.priceHistory = [{ date := now, price := p.currentPrice }] := by
  refine ⟨rfl, ?_⟩
  unfold playwrightElementToProduct at h
  cases idAttr with
  | none => exact absurd h (by simp)
  | some rawId =>
    dsimp only at h
    cases hj : jsNumber (dollarStr ++ '.' :: digitsOnly centStr) with
    | none => rw [hj] at h; exact absurd h (by simp)
    | some price =>
      rw [hj] at h
      dsimp only at h
      split at h
      · injection h with h2
        subst h2
        rfl
      · exact absurd h (by simp)

/-- The product `playwrightElementToProduct` builds from the sample raw
fields (`id` attribute `"a12345b"`, title `"Test Item"`, dollars `"4"`,
cents `"10kg"`). -/
def extractedSample : Product :=
  { id := strOf "12345"
    name := strOf "Test Item"
    category := some []
    sourceSite := strOf "countdown.co.nz"
    size := some (strOf "1kg")
    unitPrice := none
    unitName := none
    originalUnitQuantity := none
    currentPrice := mkRat 41 10
    priceHistory := [{ date := dayTwo, price := mkRat 41 10 }]
    lastUpdated := dayTwo
    lastChecked := dayTwo }

/-- Witness for C3 at the concrete extracted sample. -/
theorem claim3_new_product_witness :
    upsertProductToMySQL sampleValidCats true extractedSample none =
      (UpsertResponse.NewProduct, some extractedSample)
    ∧ extractedSample.priceHistory =
      [{ date := dayTwo, price := extractedSample.currentPrice }] :=
  claim3_new_product sampleValidCats (some (strOf "a12345b")) (strOf "Test Item")
    (strOf "1kg") [] (strOf "4") (strOf "10kg") dayTwo extractedSample
    (by with_unfolding_all decide)

/-- C4: whenever `buildUpdatedProduct` decides `PriceChanged` for a
scraped product with the extractor's single-entry history, the returned
history is the existing ledger extended by the scraped observation: its
length is `existing.priceHistory.length + 1`, its first
`existing.priceHistory.length` elements are exactly the existing ledger,
and its last element is the scraped price at the scraped time. -/
theorem claim4_priceChanged_history (validCats : List Str) (s d : Product)
    (r : ProductResponse)
    (hh : s.priceHistory = [{ date := s.lastUpdated, price := s.currentPrice }])
    (h : buildUpdatedProduct validCats s d = Except.ok r)
    (ht : r.upsertType = UpsertResponse.PriceChanged) :
    r.product.priceHistory =
      d.priceHistory ++ [{ date := s.lastUpdated, price := s.currentPrice }]
    ∧ r.product.priceHistory.length = d.priceHistory.length + 1
    ∧ r.product.priceHistory.take d.priceHistory.length = d.priceHistory
    ∧ r.product.priceHistory.getLast? =
        some { date := s.lastUpdated, price := s.currentPrice } := by
  rcases buildUpdatedProduct_inv _ _ _ _ h with
    ⟨hpc, rfl⟩ | ⟨hpc, dbCats, hc, ⟨hv, hsc, rfl⟩ | ⟨hv, rfl⟩⟩
  · have he : s.priceHistory.headD default =
        { date := s.lastUpdated, price := s.currentPrice } := by
      rw [hh]; rfl
    dsimp only
    rw [he]
    exact ⟨rfl, by simp, List.take_left _ _, getLast?_snoc _ _⟩
  · exact absurd ht (by simp)
  · exact absurd ht (by simp)

/-- Witness for C4 at the concrete `PriceChanged` instance. -/
theorem claim4_priceChanged_history_witness :
    priceChangedSampleResponse.product.priceHistory =
      dbSample.priceHistory ++
        [{ date := scrapedSample.lastUpdated, price := scrapedSample.currentPrice }]
    ∧ priceChangedSampleResponse.product.priceHistory.length =
        dbSample.priceHistory.length + 1
    ∧ priceChangedSampleResponse.product.priceHistory.take dbSample.priceHistory.length =
        dbSample.priceHistory
    ∧ priceChangedSampleResponse.product.priceHistory.getLast? =
        some { date := scrapedSample.lastUpdated, price := scrapedSample.currentPrice } :=
  claim4_priceChanged_history sampleValidCats scrapedSample dbSample
    priceChangedSampleResponse (by with_unfolding_all decide)
    (by with_unfolding_all decide) (by with_unfolding_all decide)

/-- C5 (amended): with no qualifying price change, an existing record with
a present but invalid category list yields `InfoChanged` with the scraped
record's categories and identifying metadata while `priceHistory` and
`lastUpdated` stay exactly the existing record's; but an *absent* (null)
category list makes the category check throw, so the upsert reports
`Failed` (and leaves the row unchanged) instead of `InfoChanged`. -/
theorem claim5_infoChanged_frame (validCats : List Str) (s d : Product)
    (hpc : ¬ priceChangeCond s d) :
    (∀ dbCats sCats, d.category = some dbCats → allValid validCats dbCats = false →
      s.category = some sCats →
      buildUpdatedProduct validCats s d =
        Except.ok
          { upsertType := UpsertResponse.InfoChanged,
            product :=
              { s with priceHistory := d.priceHistory, lastUpdated := d.lastUpdated } })
    ∧ (d.category = none →
        buildUpdatedProduct validCats s d =
          Except.error "TypeError: cannot read property every of null"
        ∧ ∀ writeOk, upsertProductToMySQL validCats writeOk s (some d) =
            (UpsertResponse.Failed, some d)) := by
  constructor
  · intro dbCats sCats hc hv hs
    exact buildUpdatedProduct_info_eq validCats s d dbCats sCats hpc hc hv hs
  · intro hnone
    have hb := buildUpdatedProduct_none_eq validCats s d hpc hnone
    refine ⟨hb, fun writeOk => ?_⟩
    unfold upsertProductToMySQL upsertMySQLBody
    dsimp only
    rw [hb]

/-- C5 counterexample to the claim as stated: against `dbNullCats`
(absent category list, no qualifying price change) the upsert reports
`Failed`, not `InfoChanged`. -/
theorem claim5_counterexample :
    ¬ priceChangeCond scrapedSample dbNullCats
    ∧ dbNullCats.category = none
    ∧ (upsertProductToMySQL sampleValidCats true scrapedSample (some dbNullCats)).1 =
        UpsertResponse.Failed
    ∧ (upsertProductToMySQL sampleValidCats true scrapedSample (some dbNullCats)).1 ≠
        UpsertResponse.InfoChanged := by
  refine ⟨by with_unfolding_all decide, rfl, by with_unfolding_all decide,
    by with_unfolding_all decide⟩

/-- Witness for the amended C5: the invalid-category case at
(`scrapedSample`, `dbBadCats`), the absent-category case at
(`scrapedSample`, `dbNullCats`). -/
theorem claim5_infoChanged_frame_witness :
    buildUpdatedProduct sampleValidCats scrapedSample dbBadCats =
      Except.ok infoChangedSampleResponse
    ∧ upsertProductToMySQL sampleValidCats true scrapedSample (some dbNullCats) =
        (UpsertResponse.Failed, some dbNullCats) := by
  constructor
  · exact (claim5_infoChanged_frame sampleValidCats scrapedSample dbBadCats
      (by with_unfolding_all decide)).1 [catUnknown] [catIceCream]
      (by with_unfolding_all decide) (by with_unfolding_all decide)
      (by with_unfolding_all decide)
  · exact ((claim5_infoChanged_frame sampleValidCats scrapedSample dbNullCats
      (by with_unfolding_all decide)).2 (by with_unfolding_all decide)).2 true

/-- C6 (amended): reconciling the same scraped input a second time against
the product returned by a first successful reconciliation yields
`AlreadyUpToDate` — provided every category tag of the scraped product is
in the valid set; a scraped product carrying an out-of-set tag makes the
second call report `InfoChanged` again (see the counterexample). -/
theorem claim6_second_reconcile_upToDate (validCats : List Str) (s d : Product)
    (r1 : ProductResponse) (sCats : List Str)
    (hs : s.category = some sCats)
    (hv : allValid validCats sCats = true)
    (h1 : buildUpdatedProduct validCats s d = Except.ok r1) :
    buildUpdatedProduct validCats s r1.product =
      Except.ok
        { upsertType := UpsertResponse.AlreadyUpToDate,
          product := { r1.product with lastChecked := s.lastChecked } } := by
  have habs : ∀ p : Product, p.currentPrice = s.currentPrice → ¬ priceChangeCond s p := by
    intro p hp hcond
    rcases hcond with ⟨hgt, _⟩
    rw [hp, sub_self, abs_zero] at hgt
    exact absurd hgt (by norm_num)
  rcases buildUpdatedProduct_inv _ _ _ _ h1 with
    ⟨hpc, rfl⟩ | ⟨hpc, dbCats, hc, ⟨hv2, hsc, rfl⟩ | ⟨hv2, rfl⟩⟩
  · exact buildUpdatedProduct_upToDate_eq validCats s _ sCats (habs _ rfl) hs hv
  · exact buildUpdatedProduct_upToDate_eq validCats s _ sCats (habs _ rfl) hs hv
  · exact buildUpdatedProduct_upToDate_eq validCats s _ dbCats hpc hc hv2

/-- Witness for the amended C6: the second reconciliation after the
concrete `PriceChanged` outcome is `AlreadyUpToDate`. -/
theorem claim6_second_reconcile_upToDate_witness :
    buildUpdatedProduct sampleValidCats scrapedSample priceChangedSampleResponse.product =
      Except.ok
        { upsertType := UpsertResponse.AlreadyUpToDate,
          product :=
            { priceChangedSampleResponse.product with
              lastChecked := scrapedSample.lastChecked } } :=
  claim6_second_reconcile_upToDate sampleValidCats scrapedSample dbSample
    priceChangedSampleResponse [catIceCream] (by with_unfolding_all decide)
    (by with_unfolding_all decide) (by with_unfolding_all decide)

/-- C6 counterexample to the claim as stated: `scrapedBadCats` carries a
tag outside the valid set, so the first reconciliation against
`dbWrongCats` yields `InfoChanged`, and the second call — with the first
call's product as the new existing record — yields `InfoChanged` again,
not `AlreadyUpToDate`. -/
theorem claim6_counterexample :
    buildUpdatedProduct sampleValidCats scrapedBadCats dbWrongCats =
      Except.ok infoChangedFixpointResponse
    ∧ buildUpdatedProduct sampleValidCats scrapedBadCats infoChangedFixpointResponse.product =
        Except.ok infoChangedFixpointResponse
    ∧ infoChangedFixpointResponse.upsertType ≠ UpsertResponse.AlreadyUpToDate := by
  refine ⟨by with_unfolding_all decide, by with_unfolding_all decide,
    by with_unfolding_all decide⟩

/-- C8 is a code bug: on the update path the SQL `UPDATE` column list
omits `lastChecked`, so the stored row keeps its old `lastChecked` even
though the decision is `AlreadyUpToDate` and the scraped product carries a
newer one (the `AlreadyUpToDate` branch even assigns
`dbProduct.lastChecked = scrapedProduct.lastChecked` in memory, and the
insert path does persist `lastChecked`). -/
theorem claim8_lastChecked_not_persisted :
    (upsertProductToMySQL sampleValidCats true scrapedSample (some dbSameDay)).1 =
      UpsertResponse.AlreadyUpToDate
    ∧ (upsertProductToMySQL sampleValidCats true scrapedSample (some dbSameDay)).2.map
        Product.lastChecked = some dbSameDay.lastChecked
    ∧ dbSameDay.lastChecked ≠ scrapedSample.lastChecked := by
  refine ⟨by with_unfolding_all decide, by with_unfolding_all decide,
    by with_unfolding_all decide⟩

/-- Every successful `buildUpdatedProduct` call returns one of the three
update decisions. -/
theorem buildUpdatedProduct_ok_type (validCats : List Str) (s d : Product)
    (r : ProductResponse) (h : buildUpdatedProduct validCats s d = Except.ok r) :
    r.upsertType = UpsertResponse.PriceChanged ∨ r.upsertType = UpsertResponse.InfoChanged ∨
      r.upsertType = UpsertResponse.AlreadyUpToDate := by
  rcases buildUpdatedProduct_inv _ _ _ _ h with
    ⟨_, rfl⟩ | ⟨_, _, _, ⟨_, _, rfl⟩ | ⟨_, rfl⟩⟩
  · exact Or.inl rfl
  · exact Or.inr (Or.inl rfl)
  · exact Or.inr (Or.inr rfl)

/-- C7 counterexample to the claim as stated: in the Frappe backend, when
the initial read reports 404 and the create request then fails, the
failure is thrown past the upsert function — the caller gets an exception,
not the decision `Failed`. -/
theorem claim7_counterexample :
    upsertProductToFrappe scrapedSample (HttpResult.errStatus 404) HttpResult.ok
        HttpResult.errNoResponse =
      Except.error "unhandled error thrown by the create request" := rfl

/-- C7 (amended): in the MySQL backend every thrown failure — while
computing the reconciliation decision or writing the record — is caught
and reported as `Failed` with the stored row untouched; in the Frappe
backend an exception escapes the upsert exactly when the caught error is a
404 and the subsequent create request fails. -/
theorem claim7_error_handling :
    (∀ validCats writeOk scrapedProduct existing e,
      upsertMySQLBody validCats writeOk scrapedProduct existing = Except.error e →
      upsertProductToMySQL validCats writeOk scrapedProduct existing =
        (UpsertResponse.Failed, existing))
    ∧ (∀ scrapedProduct getRes putRes postRes,
        (∃ e, upsertProductToFrappe scrapedProduct getRes putRes postRes = Except.error e) ↔
          (∃ err, caughtOf getRes putRes = some err ∧ is404 err = true ∧
            postRes ≠ HttpResult.ok)) := by
  constructor
  · intro v w s ex e h
    unfold upsertProductToMySQL
    rw [h]
  · intro s g p q
    unfold upsertProductToFrappe
    cases hc : caughtOf g p with
    | none => simp
    | some err =>
      dsimp only
      by_cases h4 : is404 err = true
      · rw [if_pos h4]
        cases q with
        | ok => simp [h4]
        | errStatus c => simp [h4]
        | errNoResponse => simp [h4]
      · rw [if_neg h4]
        simp [h4]

/-- Witness for the amended C7: the MySQL clause at the thrown-`TypeError`
instance, the Frappe clause at the 404-then-failed-create instance. -/
theorem claim7_error_handling_witness :
    upsertProductToMySQL sampleValidCats true scrapedSample (some dbNullCats) =
      (UpsertResponse.Failed, some dbNullCats)
    ∧ (∃ e, upsertProductToFrappe scrapedSample (HttpResult.errStatus 404) HttpResult.ok
        HttpResult.errNoResponse = Except.error e) := by
  constructor
  · exact claim7_error_handling.1 sampleValidCats true scrapedSample (some dbNullCats)
      "TypeError: cannot read property every of null" (by with_unfolding_all decide)
  · exact (claim7_error_handling.2 scrapedSample (HttpResult.errStatus 404) HttpResult.ok
      HttpResult.errNoResponse).mpr ⟨HttpResult.errStatus 404, rfl, rfl, by decide⟩

/-- C9 counterexample to the claim as stated: the Frappe backend's
successful update path returns the decision `Updated`, which is not in the
claimed five-element set. -/
theorem claim9_counterexample :
    upsertProductToFrappe scrapedSample HttpResult.ok HttpResult.ok HttpResult.ok =
      Except.ok UpsertResponse.Updated
    ∧ UpsertResponse.Updated ∉
        [UpsertResponse.NewProduct, UpsertResponse.PriceChanged, UpsertResponse.InfoChanged,
         UpsertResponse.AlreadyUpToDate, UpsertResponse.Failed] :=
  ⟨rfl, by decide⟩

/-- C9 (amended): the MySQL upsert decision is always one of the five
spec decisions `NewProduct`, `PriceChanged`, `InfoChanged`,
`AlreadyUpToDate`, `Failed`; the Frappe upsert, whenever it returns a
decision at all, yields one of `Updated`, `NewProduct`, `Failed` —
`Updated` lying outside the spec's set. -/
theorem claim9_decision_range :
    (∀ validCats writeOk scrapedProduct existing,
      (upsertProductToMySQL validCats writeOk scrapedProduct existing).1 ∈
        [UpsertResponse.NewProduct, UpsertResponse.PriceChanged, UpsertResponse.InfoChanged,
         UpsertResponse.AlreadyUpToDate, UpsertResponse.Failed])
    ∧ (∀ scrapedProduct getRes putRes postRes d,
        upsertProductToFrappe scrapedProduct getRes putRes postRes = Except.ok d →
        d ∈ [UpsertResponse.Updated, UpsertResponse.NewProduct, UpsertResponse.Failed]) := by
  constructor
  · intro v w s ex
    unfold upsertProductToMySQL
    cases hb : upsertMySQLBody v w s ex with
    | error e => simp
    | ok r =>
      dsimp only
      unfold upsertMySQLBody at hb
      cases ex with
      | none =>
        dsimp only at hb
        split at hb
        · injection hb with h2
          rw [← h2]
          simp
        · exact absurd hb (by simp)
      | some db =>
        dsimp only at hb
        cases hr : buildUpdatedProduct v s db with
        | error e => rw [hr] at hb; exact absurd hb (by simp)
        | ok resp =>
          rw [hr] at hb
          dsimp only at hb
          split at hb
          · injection hb with h2
            rw [← h2]
            dsimp only
            rcases buildUpdatedProduct_ok_type v s db resp hr with h | h | h <;> simp [h]
          · exact absurd hb (by simp)
  · intro s g p q d h
    unfold upsertProductToFrappe at h
    cases hc : caughtOf g p with
    | none =>
      rw [hc] at h
      injection h with h2
      rw [← h2]
      simp
    | some err =>
      rw [hc] at h
      dsimp only at h
      split at h
      · split at h
        · injection h with h2; rw [← h2]; simp
        · exact absurd h (by simp)
      · injection h with h2; rw [← h2]; simp

/-- Witness for the amended C9 at concrete instances of both backends. -/
theorem claim9_decision_range_witness :
    (upsertProductToMySQL sampleValidCats true scrapedSample (some dbSample)).1 ∈
      [UpsertResponse.NewProduct, UpsertResponse.PriceChanged, UpsertResponse.InfoChanged,
       UpsertResponse.AlreadyUpToDate, UpsertResponse.Failed]
    ∧ UpsertResponse.Updated ∈
        [UpsertResponse.Updated, UpsertResponse.NewProduct, UpsertResponse.Failed] :=
  ⟨claim9_decision_range.1 sampleValidCats true scrapedSample (some dbSample),
   claim9_decision_range.2 scrapedSample HttpResult.ok HttpResult.ok HttpResult.ok
     UpsertResponse.Updated rfl⟩

theorem hasPrefixC_nil (l : Str) : hasPrefixC l [] = true := by
  cases l <;> rfl

theorem containsC_nil_right (l : Str) : containsC l [] = true := by
  cases l with
  | nil => rfl
  | cons a as => simp [containsC, hasPrefixC_nil]

theorem containsC_of_hasPrefixC (l s : Str) (h : hasPrefixC l s = true) :
    containsC l s = true := by
  cases l with
  | nil =>
    cases s with
    | nil => rfl
    | cons b bs => exact absurd h (by simp [hasPrefixC])
  | cons a as => simp [containsC, h]

theorem containsC_cons_of (c : Char) (l s : Str) (h : containsC l s = true) :
    containsC (c :: l) s = true := by
  simp [containsC, h]

theorem consHead_ne_nil (c : Char) (L : List Str) : consHead c L ≠ [] := by
  cases L <;> simp [consHead]

/-- The head chunk of a split is the run of non-separator characters at
the front of the string. -/
theorem splitCh_head (sep : Char) (l : Str) :
    ∃ t, splitCh sep l = (l.takeWhile fun c => c != sep) :: t := by
  induction l with
  | nil => exact ⟨[], rfl⟩
  | cons c cs ih =>
    by_cases hc : c = sep
    · subst hc
      refine ⟨splitCh c cs, ?_⟩
      simp [splitCh, List.takeWhile]
    · rcases ih with ⟨t, ht⟩
      refine ⟨t, ?_⟩
      have hcb : (c != sep) = true := by simp [hc]
      rw [splitCh, if_neg hc, ht, List.takeWhile_cons, if_pos hcb]
      rfl

/-- A prefix made of non-separator characters survives `takeWhile`. -/
theorem hasPrefixC_takeWhile (sep : Char) :
    ∀ (s l : Str), hasPrefixC l s = true → (∀ c ∈ s, c ≠ sep) →
      hasPrefixC (l.takeWhile fun c => c != sep) s = true := by
  intro s
  induction s with
  | nil => intro l _ _; exact hasPrefixC_nil _
  | cons b bs ih =>
    intro l h hs
    cases l with
    | nil => exact absurd h (by simp [hasPrefixC])
    | cons a as =>
      rw [hasPrefixC] at h
      by_cases hab : a = b
      · rw [if_pos hab] at h
        have hbsep : b ≠ sep := hs b (by simp)
        have hasep : (a != sep) = true := by
          simp [hab, hbsep]
        rw [List.takeWhile_cons, if_pos hasep, hasPrefixC, if_pos hab]
        exact ih as h (fun c hc => hs c (by simp [hc]))
      · rw [if_neg hab] at h
        exact absurd h (by simp)

/-- Membership transfer into `consHead`. -/
theorem consHead_mem (c : Char) (s : Str) (L : List Str) (p : Str) (hp : p ∈ L)
    (hcp : containsC p s = true) : ∃ q ∈ consHead c L, containsC q s = true := by
  cases L with
  | nil => exact absurd hp (by simp)
  | cons h t =>
    rcases List.mem_cons.mp hp with rfl | hpt
    · exact ⟨c :: p, by simp [consHead], containsC_cons_of c p s hcp⟩
    · exact ⟨p, by simp [consHead, hpt], hcp⟩

/-- A substring free of the separator character survives splitting: some
chunk of the split still contains it. -/
theorem containsC_split (sep : Char) (s : Str) (hs : ∀ c ∈ s, c ≠ sep) :
    ∀ l : Str, containsC l s = true →
      ∃ p ∈ splitCh sep l, containsC p s = true := by
  intro l
  induction l with
  | nil =>
    intro h
    rw [containsC] at h
    have : s = [] := by simpa [List.isEmpty_iff] using h
    subst this
    exact ⟨[], by simp [splitCh], rfl⟩
  | cons c cs ih =>
    intro h
    rw [containsC, Bool.or_eq_true] at h
    rcases h with h | h
    · rcases splitCh_head sep (c :: cs) with ⟨t, ht⟩
      refine ⟨(c :: cs).takeWhile fun x => x != sep, by simp [ht], ?_⟩
      exact containsC_of_hasPrefixC _ _ (hasPrefixC_takeWhile sep s (c :: cs) h hs)
    · rcases ih h with ⟨p, hpmem, hpc⟩
      by_cases hc : c = sep
      · subst hc
        exact ⟨p, by simp [splitCh, hpmem], hpc⟩
      · rw [splitCh, if_neg hc]
        exact consHead_mem c s (splitCh sep cs) p hpmem hpc

/-- Once the accumulating url ends with the optimised query parameters, it
keeps that suffix through any further section. -/
theorem processSection_suffix_preserved (line : Str) (st : CategorisedUrl) (sec : Str)
    (h : optimisedQuery <:+ st.url) :
    optimisedQuery <:+ (processSection line st sec).url := by
  unfold processSection
  by_cases h1 : containsC sec countdownStr = true
  · rw [if_pos h1]
    exact List.suffix_append _ _
  · rw [if_neg h1]
    by_cases h2 : hasPrefixC sec categoriesTok = true
    · rw [if_pos h2]
      exact h
    · rw [if_neg h2]
      exact h

/-- A section containing `countdown.co.nz` sets a url ending with the
optimised query parameters. -/
theorem processSection_suffix_established (line : Str) (st : CategorisedUrl) (sec : Str)
    (h : containsC sec countdownStr = true) :
    optimisedQuery <:+ (processSection line st sec).url := by
  unfold processSection
  rw [if_pos h]
  exact List.suffix_append _ _

theorem foldl_suffix_preserved (line : Str) :
    ∀ (secs : List Str) (st : CategorisedUrl), optimisedQuery <:+ st.url →
      optimisedQuery <:+ (secs.foldl (processSection line) st).url := by
  intro secs
  induction secs with
  | nil => intro st h; exact h
  | cons s0 rest ih =>
    intro st h
    exact ih (processSection line st s0) (processSection_suffix_preserved line st s0 h)

theorem foldl_suffix_established (line : Str) :
    ∀ (secs : List Str) (st : CategorisedUrl),
      (∃ sec ∈ secs, containsC sec countdownStr = true) →
      optimisedQuery <:+ (secs.foldl (processSection line) st).url := by
  intro secs
  induction secs with
  | nil => intro st h; rcases h with ⟨sec, hmem, _⟩; exact absurd hmem (by simp)
  | cons s0 rest ih =>
    intro st h
    rcases h with ⟨sec, hmem, hsec⟩
    rcases List.mem_cons.mp hmem with rfl | hrest
    · exact foldl_suffix_preserved line rest _
        (processSection_suffix_established line st sec hsec)
    · exact ih (processSection line st s0) ⟨sec, hrest, hsec⟩

/-- Sections that do not start with `categories=` leave the category list
unchanged. -/
theorem processSection_categories_unchanged (line : Str) (st : CategorisedUrl) (sec : Str)
    (h : hasPrefixC sec categoriesTok = false) :
    (processSection line st sec).categories = st.categories := by
  unfold processSection
  by_cases h1 : containsC sec countdownStr = true
  · rw [if_pos h1]
  · rw [if_neg h1, if_neg (by simp [h])]

theorem foldl_categories_unchanged (line : Str) :
    ∀ (secs : List Str) (st : CategorisedUrl),
      (∀ sec ∈ secs, hasPrefixC sec categoriesTok = false) →
      (secs.foldl (processSection line) st).categories = st.categories := by
  intro secs
  induction secs with
  | nil => intro st _; rfl
  | cons s0 rest ih =>
    intro st h
    rw [List.foldl_cons, ih (processSection line st s0) (fun sec hm => h sec (by simp [hm])),
      processSection_categories_unchanged line st s0 (h s0 (by simp))]

/-- C10: `parseAndCategoriseURL` returns `undefined` exactly when the line
does not contain `countdown.co.nz`; every defined result has a non-empty
category list — equal to the last URL path segment when no section starts
with `categories=` — and a url ending with
`?page=1&size=48&inStockProductsOnly=true`. -/
theorem claim10_parse_and_categorise (line : Str) :
    (parseAndCategoriseURL line = none ↔ containsC line countdownStr = false)
    ∧ ∀ cu, parseAndCategoriseURL line = some cu →
        cu.categories ≠ []
        ∧ optimisedQuery <:+ cu.url
        ∧ ((∀ sec ∈ splitCh ' ' line, hasPrefixC sec categoriesTok = false) →
            cu.categories = [lastUrlSegment cu.url]) := by
  constructor
  · unfold parseAndCategoriseURL
    cases hb : containsC line countdownStr
    · rw [if_pos (by simp [hb])]
      simp
    · rw [if_neg (by simp [hb])]
      dsimp only
      constructor
      · intro h
        split at h <;> exact absurd h (by simp)
      · intro h
        exact absurd h (by simp)
  · intro cu hcu
    unfold parseAndCategoriseURL at hcu
    by_cases hb : containsC line countdownStr = true
    swap
    · rw [if_pos (by simpa using hb)] at hcu
      exact absurd hcu (by simp)
    · rw [if_neg (by simp [hb])] at hcu
      dsimp only at hcu
      have hex : ∃ sec ∈ splitCh ' ' line, containsC sec countdownStr = true :=
        containsC_split ' ' countdownStr (by decide) line hb
      have hsuf : optimisedQuery <:+
          ((splitCh ' ' line).foldl (processSection line)
            { url := [], categories := [] }).url :=
        foldl_suffix_established line (splitCh ' ' line) _ hex
      split at hcu
      · injection hcu with h2
        rw [← h2]
        refine ⟨by simp, hsuf, fun _ => rfl⟩
      · injection hcu with h2
        rw [← h2]
        rename_i hlen
        refine ⟨fun hnil => hlen (by rw [hnil]; rfl), hsuf, fun hnone => ?_⟩
        exact absurd (foldl_categories_unchanged line (splitCh ' ' line) _ hnone)
          (by intro hempty; exact hlen (by rw [hempty]; rfl))

/-- An input line with no `categories=` token, exercising the fallback. -/
def sampleLine : Str := strOf "countdown.co.nz/shop/browse/frozen/tubs"

/-- The categorised url the parser produces for `sampleLine`. -/
def parsedSampleUrl : CategorisedUrl :=
  { url := strOf
      "https://countdown.co.nz/shop/browse/frozen/tubs?page=1&size=48&inStockProductsOnly=true",
    categories := [strOf "tubs"] }

/-- Witness for C10 at the concrete `sampleLine`. -/
theorem claim10_parse_and_categorise_witness :
    parsedSampleUrl.categories ≠ []
    ∧ optimisedQuery <:+ parsedSampleUrl.url
    ∧ ((∀ sec ∈ splitCh ' ' sampleLine, hasPrefixC sec categoriesTok = false) →
        parsedSampleUrl.categories = [lastUrlSegment parsedSampleUrl.url]) :=
  (claim10_parse_and_categorise sampleLine).2 parsedSampleUrl (by with_unfolding_all decide)
